import Mathlib

/-!
Verification of the three game prototypes in this repository
(`kingshot.py`, `ks_thrown.py`, `starcraft.py`).

Python floats are modelled as real numbers, Python ints as `ℤ` (or `ℕ` for
counters that never go negative), `math.hypot` as `hypot` below and
`math.atan2 y x` as the argument of the complex number `x + y*I`.
Rendering (`draw`), fonts and the pygame event plumbing are outside the
model; only simulation state and logic are embedded.
-/

/-- math.hypot: Euclidean norm of the vector (x, y). -/
noncomputable def hypot (x y : ℝ) : ℝ := Real.sqrt (x ^ 2 + y ^ 2)

/-- math.atan2 y x, via the argument of the complex number x + y i. -/
noncomputable def atan2 (y x : ℝ) : ℝ := Complex.arg ⟨x, y⟩

lemma hypot_nonneg (x y : ℝ) : 0 ≤ hypot x y := Real.sqrt_nonneg _

lemma hypot_axis (x : ℝ) (hx : 0 ≤ x) : hypot x 0 = x := by
  rw [hypot]
  rw [show x ^ 2 + (0:ℝ) ^ 2 = x ^ 2 by ring]
  exact Real.sqrt_sq hx

lemma hypot_zero : hypot 0 0 = 0 := by
  simpa using hypot_axis 0 le_rfl

lemma hypot_scale (c x y : ℝ) (hc : 0 ≤ c) :
    hypot (c * x) (c * y) = c * hypot x y := by
  rw [hypot, hypot, show (c * x) ^ 2 + (c * y) ^ 2 = c ^ 2 * (x ^ 2 + y ^ 2) by ring,
    Real.sqrt_mul (sq_nonneg c), Real.sqrt_sq hc]

lemma hypot_pos_of_le {x y c : ℝ} (hc : 0 < c) (h : c ≤ hypot x y) : 0 < hypot x y :=
  lt_of_lt_of_le hc h

/-- atan2 of a positive x-axis direction is 0. -/
lemma atan2_zero_of_pos {x : ℝ} (hx : 0 < x) : atan2 0 x = 0 := by
  have hco : (⟨x, 0⟩ : ℂ) = (x : ℂ) := by
    apply Complex.ext <;> simp
  rw [atan2, hco]
  exact Complex.arg_ofReal_of_nonneg hx.le

/-- Generic preservation of an invariant along List.foldl. -/
lemma foldl_inv {σ α : Type*} (P : σ → Prop) (f : σ → α → σ)
    (hf : ∀ s a, P s → P (f s a)) :
    ∀ (l : List α) (s : σ), P s → P (List.foldl f s l) := by
  intro l
  induction l with
  | nil => intro s hs; simpa using hs
  | cons a l ih => intro s hs; simpa using ih (f s a) (hf s a hs)

namespace Kingshot

/-! Shallow embedding of `src/kingshot.py` (tower-defense variant). -/

def SCREEN_WIDTH : ℝ := 800
def SCREEN_HEIGHT : ℝ := 600

/-- class King (kingshot.py): position, radius, health, shoot cooldown. -/
structure King where
  x : ℝ
  y : ℝ
  radius : ℝ
  health : ℤ
  max_health : ℤ
  shoot_cooldown : ℤ
  shoot_delay : ℤ

/-- King.__init__: radius 20, health 100/100, cooldown 0, delay 10. -/
def King.init (x y : ℝ) : King :=
  { x := x, y := y, radius := 20, health := 100, max_health := 100
    shoot_cooldown := 0, shoot_delay := 10 }

/-- King.update: decrement the cooldown when it is positive. -/
def King.update (k : King) : King :=
  if 0 < k.shoot_cooldown then { k with shoot_cooldown := k.shoot_cooldown - 1 } else k

/-- class Enemy (kingshot.py). -/
structure Enemy where
  x : ℝ
  y : ℝ
  target_x : ℝ
  target_y : ℝ
  speed : ℝ
  health : ℤ
  max_health : ℤ
  radius : ℝ

/-- Enemy.__init__: speed 1.5, health 50/50, radius 15; the target point is
captured once at construction time. -/
noncomputable def Enemy.init (start_x start_y target_x target_y : ℝ) : Enemy :=
  { x := start_x, y := start_y, target_x := target_x, target_y := target_y
    speed := 1.5, health := 50, max_health := 50, radius := 15 }

/-- Enemy.update: move `speed` along the unit vector toward the captured
target point (no king parameter: the live king position is never read). -/
noncomputable def Enemy.update (e : Enemy) : Enemy :=
  let dx := e.target_x - e.x
  let dy := e.target_y - e.y
  let dist := hypot dx dy
  if 0 < dist then
    { e with x := e.x + dx / dist * e.speed, y := e.y + dy / dist * e.speed }
  else e

/-- class Projectile (kingshot.py).  `__init__` receives an `is_player`
argument but only uses it to pick the radius (2 for the king's shots,
3 otherwise) and the color; it never stores `self.is_player`, so the object
carries no origin flag at runtime. -/
structure Projectile where
  x : ℝ
  y : ℝ
  vx : ℝ
  vy : ℝ
  damage : ℤ
  radius : ℝ

/-- Projectile.__init__(x, y, angle, damage=10, is_player=False). -/
noncomputable def Projectile.init (x y angle : ℝ) (damage : ℤ) (is_player : Bool) :
    Projectile :=
  { x := x, y := y, vx := Real.cos angle * 8, vy := Real.sin angle * 8
    damage := damage, radius := if is_player then 2 else 3 }

/-- King.shoot: when the cooldown is ≤ 0, append a player projectile aimed at
(target_x, target_y) and reset the cooldown to shoot_delay. -/
noncomputable def King.shoot (k : King) (target_x target_y : ℝ)
    (projectiles : List Projectile) : King × List Projectile :=
  if k.shoot_cooldown ≤ 0 then
    let angle := atan2 (target_y - k.y) (target_x - k.x)
    ({ k with shoot_cooldown := k.shoot_delay },
      projectiles ++ [Projectile.init k.x k.y angle 10 true])
  else (k, projectiles)

/-- Enemy.take_damage: subtract, report death when health ≤ 0. -/
def Enemy.take_damage (e : Enemy) (damage : ℤ) : Enemy × Bool :=
  let e' := { e with health := e.health - damage }
  (e', decide (e'.health ≤ 0))

/-- The overlap test `dist < self.radius + enemy.radius` used by
Projectile.update, as a proposition on a projectile position. -/
def hitsEnemy (p : Projectile) (e : Enemy) : Prop :=
  hypot (p.x - e.x) (p.y - e.y) < p.radius + e.radius

/-- The king-overlap test `dist_to_king < self.radius + king.radius`. -/
def hitsKing (p : Projectile) (k : King) : Prop :=
  hypot (p.x - k.x) (p.y - k.y) < p.radius + k.radius

/-- The on-screen test `0 < self.x < SCREEN_WIDTH and 0 < self.y < SCREEN_HEIGHT`. -/
def onScreen (p : Projectile) : Prop :=
  (0 < p.x ∧ p.x < SCREEN_WIDTH) ∧ (0 < p.y ∧ p.y < SCREEN_HEIGHT)

noncomputable instance (p : Projectile) (e : Enemy) : Decidable (hitsEnemy p e) := by
  unfold hitsEnemy; infer_instance

noncomputable instance (p : Projectile) (k : King) : Decidable (hitsKing p k) := by
  unfold hitsKing; infer_instance

noncomputable instance (p : Projectile) : Decidable (onScreen p) := by
  unfold onScreen; infer_instance

/-- The `for enemy in enemies[:]` loop of Projectile.update: scan the
enemies in order; on the first circle overlap apply damage, drop the enemy
when it dies, and stop with hit = true. -/
noncomputable def Projectile.checkEnemies (p : Projectile) :
    List Enemy → List Enemy × Bool
  | [] => ([], false)
  | e :: rest =>
    if hitsEnemy p e then
      let r := e.take_damage p.damage
      if r.2 then (rest, true) else (r.1 :: rest, true)
    else
      let r := Projectile.checkEnemies p rest
      (e :: r.1, r.2)

/-- Projectile.update(enemies, king): advance by the velocity, test the
enemies, then the king, then the screen bounds.  The king test runs for
every projectile: `hasattr(self, "is_player")` is always False because
`__init__` never assigns the attribute, so
`not hasattr(self, "is_player") or not self.is_player` is always True. -/
noncomputable def Projectile.update (p : Projectile) (enemies : List Enemy)
    (king : King) : Projectile × List Enemy × King × Bool :=
  let p' := { p with x := p.x + p.vx, y := p.y + p.vy }
  let r := p'.checkEnemies enemies
  if r.2 then (p', r.1, king, true)
  else if hitsKing p' king then
    (p', r.1, { king with health := king.health - p'.damage }, true)
  else if ¬ onScreen p' then (p', r.1, king, true)
  else (p', r.1, king, false)

/-- class Tower (kingshot.py): range 150, cooldown 0, delay 30, damage 20. -/
structure Tower where
  x : ℝ
  y : ℝ
  range : ℝ
  shoot_cooldown : ℤ
  shoot_delay : ℤ
  damage : ℤ

def Tower.init (x y : ℝ) : Tower :=
  { x := x, y := y, range := 150, shoot_cooldown := 0, shoot_delay := 30, damage := 20 }

/-- Distance from a tower to an enemy, `math.hypot(enemy.x - self.x, enemy.y - self.y)`. -/
noncomputable def Tower.distTo (t : Tower) (e : Enemy) : ℝ :=
  hypot (e.x - t.x) (e.y - t.y)

/-- The nearest-in-range scan of Tower.update.  `min_dist` starts at
`float("inf")`; the empty accumulator plays that role, since every finite
distance is below infinity. -/
noncomputable def Tower.findTargetAux (t : Tower) :
    List Enemy → Option (Enemy × ℝ) → Option (Enemy × ℝ)
  | [], acc => acc
  | e :: rest, acc =>
    match acc with
    | none =>
      if t.distTo e < t.range then t.findTargetAux rest (some (e, t.distTo e))
      else t.findTargetAux rest none
    | some (b, m) =>
      if t.distTo e < t.range ∧ t.distTo e < m then
        t.findTargetAux rest (some (e, t.distTo e))
      else t.findTargetAux rest (some (b, m))

noncomputable def Tower.findTarget (t : Tower) (enemies : List Enemy) : Option Enemy :=
  (t.findTargetAux enemies none).map Prod.fst

/-- Tower.update(enemies, projectiles): decrement a positive cooldown,
otherwise fire a damage-20 projectile at the nearest in-range enemy (if any)
and reset the cooldown. -/
noncomputable def Tower.update (t : Tower) (enemies : List Enemy)
    (projectiles : List Projectile) : Tower × List Projectile :=
  if 0 < t.shoot_cooldown then
    ({ t with shoot_cooldown := t.shoot_cooldown - 1 }, projectiles)
  else
    match t.findTargetAux enemies none with
    | some (target, _) =>
      let angle := atan2 (target.y - t.y) (target.x - t.x)
      ({ t with shoot_cooldown := t.shoot_delay },
        projectiles ++ [Projectile.init t.x t.y angle t.damage false])
    | none => (t, projectiles)

/-- One spawned enemy of a wave: `side = random.choice([0, SCREEN_WIDTH])`,
`start_y = random.randint(50, SCREEN_HEIGHT - 50)`, targeting the king's
position at spawn time.  The random draws are modelled as input streams:
`sides i` chooses the left edge, `ys i` is the i-th randint draw. -/
noncomputable def spawnEnemy (sides : ℕ → Bool) (ys : ℕ → ℤ) (kx ky : ℝ) (i : ℕ) :
    Enemy :=
  Enemy.init (if sides i then 0 else SCREEN_WIDTH) (ys i) kx ky

/-- The wave-management block of main(): increment wave_timer; past 300
ticks, reset it, increment the wave counter, spawn `wave * 2` enemies and set
spawn_timer to 60 (the later `if spawn_timer > 0` decrement is a separate
statement outside this block).  Returns (wave', wave_timer', spawn_timer',
newly spawned enemies). -/
noncomputable def waveTick (wave : ℕ) (wave_timer spawn_timer : ℤ) (king : King)
    (sides : ℕ → Bool) (ys : ℕ → ℤ) : ℕ × ℤ × ℤ × List Enemy :=
  if 300 < wave_timer + 1 then
    (wave + 1, 0, 60, (List.range ((wave + 1) * 2)).map (spawnEnemy sides ys king.x king.y))
  else (wave, wave_timer + 1, spawn_timer, [])

/-- The projectile loop of main():
`for proj in projectiles[:]: if proj.update(enemies, king): projectiles.remove(proj)`.
Each projectile is updated against the current enemies list and king; the
ones reporting a hit (or off-screen) are removed the same tick. -/
noncomputable def projectilesPass :
    List Projectile → List Enemy → King → List Projectile × List Enemy × King
  | [], enemies, king => ([], enemies, king)
  | p :: ps, enemies, king =>
    let r := p.update enemies king
    let rest := projectilesPass ps r.2.1 r.2.2.1
    if r.2.2.2 then rest else (r.1 :: rest.1, rest.2)

/-- The round state owned by main() in kingshot.py (mouse position and the
rendering objects are not simulation state). -/
structure State where
  king : King
  towers : List Tower
  enemies : List Enemy
  projectiles : List Projectile
  wave : ℕ
  wave_timer : ℤ
  spawn_timer : ℤ
  game_over : Bool

/-- The state a fresh run of main() starts from. -/
def initState : State :=
  { king := King.init 400 300
    towers := [Tower.init 100 200, Tower.init 700 200, Tower.init 100 400, Tower.init 700 400]
    enemies := [], projectiles := [], wave := 0, wave_timer := 0, spawn_timer := 0
    game_over := false }

/-- The K_r handler of main(): restore the king's health, clear enemies and
projectiles, zero the wave counter and leave the game-over state.  (It does
not touch wave_timer, spawn_timer or the king's shoot cooldown.) -/
def restart (s : State) : State :=
  { s with
    enemies := [], projectiles := [], wave := 0, game_over := false
    king := { s.king with health := s.king.max_health } }

/-- The operations main() performs on the king: per-tick `king.update()` and
the mouse-click `king.shoot(mouse_x, mouse_y, projectiles)`. -/
inductive KingOp where
  | update : KingOp
  | shoot (target_x target_y : ℝ) : KingOp

noncomputable def King.applyOp : King × List Projectile → KingOp → King × List Projectile
  | (k, ps), KingOp.update => (k.update, ps)
  | (k, ps), KingOp.shoot tx ty => k.shoot tx ty ps

noncomputable def King.runOps (s : King × List Projectile) (ops : List KingOp) :
    King × List Projectile :=
  List.foldl King.applyOp s ops

/-- A tower only ever runs `tower.update(enemies, projectiles)`; a run is a
sequence of per-tick enemies lists. -/
noncomputable def Tower.runOps (s : Tower × List Projectile) (ticks : List (List Enemy)) :
    Tower × List Projectile :=
  List.foldl (fun s es => Tower.update s.1 es s.2) s ticks

end Kingshot

namespace KsThrown

/-! Shallow embedding of `src/ks_thrown.py` (build/defend variant).  King,
Tower and the geometry are line-for-line the same as in kingshot.py; Enemy
additionally carries a gold reward and Projectile.update returns a
(hit, reward) pair. -/

def SCREEN_WIDTH : ℝ := 800
def SCREEN_HEIGHT : ℝ := 600

structure King where
  x : ℝ
  y : ℝ
  radius : ℝ
  health : ℤ
  max_health : ℤ
  shoot_cooldown : ℤ
  shoot_delay : ℤ

def King.init (x y : ℝ) : King :=
  { x := x, y := y, radius := 20, health := 100, max_health := 100
    shoot_cooldown := 0, shoot_delay := 10 }

def King.update (k : King) : King :=
  if 0 < k.shoot_cooldown then { k with shoot_cooldown := k.shoot_cooldown - 1 } else k

structure Tower where
  x : ℝ
  y : ℝ
  range : ℝ
  shoot_cooldown : ℤ
  shoot_delay : ℤ
  damage : ℤ

def Tower.init (x y : ℝ) : Tower :=
  { x := x, y := y, range := 150, shoot_cooldown := 0, shoot_delay := 30, damage := 20 }

/-- class Enemy (ks_thrown.py): same as kingshot plus `gold_reward = 10`. -/
structure Enemy where
  x : ℝ
  y : ℝ
  target_x : ℝ
  target_y : ℝ
  speed : ℝ
  health : ℤ
  max_health : ℤ
  radius : ℝ
  gold_reward : ℤ

noncomputable def Enemy.init (start_x start_y target_x target_y : ℝ) : Enemy :=
  { x := start_x, y := start_y, target_x := target_x, target_y := target_y
    speed := 1.5, health := 50, max_health := 50, radius := 15, gold_reward := 10 }

/-- Enemy.update: identical movement code to kingshot.py. -/
noncomputable def Enemy.update (e : Enemy) : Enemy :=
  let dx := e.target_x - e.x
  let dy := e.target_y - e.y
  let dist := hypot dx dy
  if 0 < dist then
    { e with x := e.x + dx / dist * e.speed, y := e.y + dy / dist * e.speed }
  else e

def Enemy.take_damage (e : Enemy) (damage : ℤ) : Enemy × Bool :=
  let e' := { e with health := e.health - damage }
  (e', decide (e'.health ≤ 0))

/-- class Projectile (ks_thrown.py): as in kingshot.py, `__init__` never
stores the `is_player` argument on the object. -/
structure Projectile where
  x : ℝ
  y : ℝ
  vx : ℝ
  vy : ℝ
  damage : ℤ
  radius : ℝ

noncomputable def Projectile.init (x y angle : ℝ) (damage : ℤ) (is_player : Bool) :
    Projectile :=
  { x := x, y := y, vx := Real.cos angle * 8, vy := Real.sin angle * 8
    damage := damage, radius := if is_player then 2 else 3 }

noncomputable def King.shoot (k : King) (target_x target_y : ℝ)
    (projectiles : List Projectile) : King × List Projectile :=
  if k.shoot_cooldown ≤ 0 then
    let angle := atan2 (target_y - k.y) (target_x - k.x)
    ({ k with shoot_cooldown := k.shoot_delay },
      projectiles ++ [Projectile.init k.x k.y angle 10 true])
  else (k, projectiles)

def hitsEnemy (p : Projectile) (e : Enemy) : Prop :=
  hypot (p.x - e.x) (p.y - e.y) < p.radius + e.radius

def hitsKing (p : Projectile) (k : King) : Prop :=
  hypot (p.x - k.x) (p.y - k.y) < p.radius + k.radius

def onScreen (p : Projectile) : Prop :=
  (0 < p.x ∧ p.x < SCREEN_WIDTH) ∧ (0 < p.y ∧ p.y < SCREEN_HEIGHT)

noncomputable instance (p : Projectile) (e : Enemy) : Decidable (hitsEnemy p e) := by
  unfold hitsEnemy; infer_instance

noncomputable instance (p : Projectile) (k : King) : Decidable (hitsKing p k) := by
  unfold hitsKing; infer_instance

noncomputable instance (p : Projectile) : Decidable (onScreen p) := by
  unfold onScreen; infer_instance

/-- The enemy loop of Projectile.update: on a kill it returns
(rest, true, gold_reward) — `hasattr(enemy, "gold_reward")` holds since
Enemy.__init__ sets the attribute — and on a plain hit (e', true, 0). -/
noncomputable def Projectile.checkEnemies (p : Projectile) :
    List Enemy → List Enemy × Bool × ℤ
  | [] => ([], false, 0)
  | e :: rest =>
    if hitsEnemy p e then
      let r := e.take_damage p.damage
      if r.2 then (rest, true, e.gold_reward) else (r.1 :: rest, true, 0)
    else
      let r := Projectile.checkEnemies p rest
      (e :: r.1, r.2)

/-- Projectile.update(enemies, king) of ks_thrown.py, returning
(projectile, enemies, king, hit flag, reward).  As in kingshot.py the king
test runs for every projectile because `is_player` was never stored. -/
noncomputable def Projectile.update (p : Projectile) (enemies : List Enemy)
    (king : King) : Projectile × List Enemy × King × Bool × ℤ :=
  let p' := { p with x := p.x + p.vx, y := p.y + p.vy }
  let r := p'.checkEnemies enemies
  if r.2.1 then (p', r.1, king, true, r.2.2)
  else if hitsKing p' king then
    (p', r.1, { king with health := king.health - p'.damage }, true, 0)
  else if ¬ onScreen p' then (p', r.1, king, true, 0)
  else (p', r.1, king, false, 0)

noncomputable def spawnEnemy (sides : ℕ → Bool) (ys : ℕ → ℤ) (kx ky : ℝ) (i : ℕ) :
    Enemy :=
  Enemy.init (if sides i then 0 else SCREEN_WIDTH) (ys i) kx ky

/-- The build-phase block of main(): count day_timer down; at 0 switch to the
defend phase, set wave_active and spawn `day * 3` enemies aimed at the king's
current position.  Returns (build_phase', wave_active', day_timer', spawned). -/
noncomputable def buildTick (day : ℕ) (day_timer : ℤ) (wave_active : Bool) (king : King)
    (sides : ℕ → Bool) (ys : ℕ → ℤ) : Bool × Bool × ℤ × List Enemy :=
  if day_timer - 1 ≤ 0 then
    (false, true, day_timer - 1,
      (List.range (day * 3)).map (spawnEnemy sides ys king.x king.y))
  else (true, wave_active, day_timer - 1, [])

/-- The round state owned by main() in ks_thrown.py. -/
structure State where
  king : King
  towers : List Tower
  enemies : List Enemy
  projectiles : List Projectile
  gold : ℤ
  day : ℕ
  build_phase : Bool
  day_timer : ℤ
  wave_active : Bool
  gold_earned : ℤ
  game_over : Bool

/-- The state a fresh run of main() starts from. -/
def initState : State :=
  { king := King.init 400 300, towers := [], enemies := [], projectiles := []
    gold := 200, day := 1, build_phase := true, day_timer := 600, wave_active := false
    gold_earned := 0, game_over := false }

/-- The K_r handler of main() in ks_thrown.py: restore the king's health,
clear towers, enemies and projectiles, and reset gold, day, build_phase,
day_timer, wave_active and game_over.  (It does not touch gold_earned or the
king's shoot cooldown.) -/
def restart (s : State) : State :=
  { s with
    towers := [], enemies := [], projectiles := []
    gold := 200, day := 1, build_phase := true, day_timer := 600, wave_active := false
    game_over := false, king := { s.king with health := s.king.max_health } }

end KsThrown

namespace Starcraft

/-! Shallow embedding of `src/starcraft.py` (RTS demo). -/

def TILE_SIZE : ℝ := 32

inductive UnitType where
  | WORKER | MARINE | ZERG_LING | PROBE
  deriving DecidableEq

inductive BuildingType where
  | COMMAND_CENTER | SUPPLY_DEPOT | BARRACKS | HATCHERY | NEXUS
  deriving DecidableEq

inductive ResourceType where
  | MINERALS | GAS
  deriving DecidableEq

inductive Order where
  | MOVE | HARVEST | BUILD | ATTACK | IDLE
  deriving DecidableEq

/-- class Resource: tile position, remaining amount, depletion flag. -/
structure Resource where
  pos : ℤ × ℤ
  amount : ℤ
  type : ResourceType
  depleted : Bool
  deriving DecidableEq

def Resource.init (pos : ℤ × ℤ) (amount : ℤ) : Resource :=
  { pos := pos, amount := amount, type := ResourceType.MINERALS, depleted := false }

/-- Which Python object a unit's `target` field currently references.  Each
player owns exactly one mineral patch, so `toResource` stands for that
patch; positions of unit/point targets are tracked in `target_pos`. -/
inductive TargetKind where
  | toResource | toUnit | toPoint
  deriving DecidableEq

/-- class Unit: position, movement target, health, speed, an order and an
optional order target.  (The `player` back-reference is represented by which
Player's `units` list holds the unit.) -/
structure Unit where
  type : UnitType
  pos : ℝ × ℝ
  target_pos : ℝ × ℝ
  health : ℤ
  max_health : ℤ
  speed : ℝ
  order : Order
  target : Option TargetKind

/-- Unit.__init__(unit_type, pos, player, health=100, speed=2.0). -/
def Unit.init (unit_type : UnitType) (pos : ℝ × ℝ) : Unit :=
  { type := unit_type, pos := pos, target_pos := pos, health := 100, max_health := 100
    speed := 2, order := Order.IDLE, target := none }

/-- class Building: type, position, health. -/
structure Building where
  type : BuildingType
  pos : ℝ × ℝ
  health : ℤ
  max_health : ℤ

def Building.init (building_type : BuildingType) (pos : ℝ × ℝ) : Building :=
  { type := building_type, pos := pos, health := 500, max_health := 500 }

/-- class Player: economy counters plus the owned collections. -/
structure Player where
  minerals : ℤ
  gas : ℤ
  supply_used : ℤ
  supply_max : ℤ
  units : List Unit
  buildings : List Building
  resources : List Resource

/-- Player.__init__: 50 minerals, 0 gas, supply 0/10, empty collections. -/
def Player.init : Player :=
  { minerals := 50, gas := 0, supply_used := 0, supply_max := 10
    units := [], buildings := [], resources := [] }

/-- Player.can_afford_supply — defined in the source but never called. -/
def Player.can_afford_supply (p : Player) (supply_cost : ℤ) : Bool :=
  decide (p.supply_used + supply_cost ≤ p.supply_max)

/-- Player.update_supply. -/
def Player.update_supply (p : Player) (delta : ℤ) : Player :=
  { p with supply_used := p.supply_used + delta }

/-- Building.can_build: only a barracks training a marine is accepted. -/
def Building.can_build (b : Building) (unit_type : UnitType) : Bool :=
  decide (b.type = BuildingType.BARRACKS ∧ unit_type = UnitType.MARINE)

/-- Building.train_unit: when the type is buildable and the owner has at
least 50 minerals, debit 50, append a fresh unit near the building
(`random.randint(-20, 20)` offsets are the inputs ox, oy) and return it;
otherwise return None and leave the player untouched. -/
def Building.train_unit (b : Building) (unit_type : UnitType) (p : Player)
    (ox oy : ℝ) : Player × Option Unit :=
  if b.can_build unit_type ∧ 50 ≤ p.minerals then
    let new_unit := Unit.init unit_type (b.pos.1 + ox, b.pos.2 + oy)
    ({ p with minerals := p.minerals - 50, units := p.units ++ [new_unit] }, some new_unit)
  else (p, none)

/-- The K_t handler of StarCraftClone.handle_events: scan player1's
buildings for the first barracks, call train_unit on it and then — no matter
whether a unit was actually produced — update_supply(1), then break. -/
def trainKeyAux (p : Player) (ox oy : ℝ) : List Building → Player
  | [] => p
  | b :: rest =>
    if b.type = BuildingType.BARRACKS then
      ((b.train_unit UnitType.MARINE p ox oy).1).update_supply 1
    else trainKeyAux p ox oy rest

def handleTrainKey (p : Player) (ox oy : ℝ) : Player :=
  trainKeyAux p ox oy p.buildings

/-- The per-unit body of the "Simple harvest logic" block of
StarCraftClone.update, which runs over player1's units: a unit whose order
is HARVEST and whose target is a Resource and which sits strictly within 20
pixels of the resource tile drains 8 from the resource; if the amount drops
to ≤ 0 the resource is marked depleted and the unit goes IDLE, otherwise the
player is credited 8 minerals. -/
noncomputable def harvestTick (u : Unit) (res : Resource) (minerals : ℤ) :
    Unit × Resource × ℤ :=
  if u.order = Order.HARVEST ∧ u.target = some TargetKind.toResource then
    if hypot (u.pos.1 - res.pos.1 * TILE_SIZE) (u.pos.2 - res.pos.2 * TILE_SIZE) < 20 then
      let res' := { res with amount := res.amount - 8 }
      if res'.amount ≤ 0 then
        ({ u with order := Order.IDLE }, { res' with depleted := true }, minerals)
      else (u, res', minerals + 8)
    else (u, res, minerals)
  else (u, res, minerals)

/-- The comparison `u.type == "Worker"` from the AI block of
StarCraftClone.update.  `u.type` is a `UnitType` enum member and `"Worker"`
is a str; Python's `==` between an enum member and a string is always
False, so the predicate holds for no unit. -/
def unitTypeEqPyStr (_t : UnitType) (_s : String) : Bool := false

/-- The "AI worker harvest" block of StarCraftClone.update:
`ai_worker = next((u for u in self.player2.units if u.type == "Worker"), None)`
and, when a worker was found and the first resource is not depleted, issue
it a HARVEST order (issue_order sets order and target; only MOVE rewrites
target_pos).  The first unit matching the predicate is mutated in place. -/
def aiAssignHarvest : List Unit → List Resource → List Unit
  | [], _ => []
  | u :: rest, resources =>
    if unitTypeEqPyStr u.type "Worker" then
      match resources with
      | [] => u :: rest
      | r :: _ =>
        if r.depleted then u :: rest
        else { u with order := Order.HARVEST, target := some TargetKind.toResource } :: rest
    else u :: aiAssignHarvest rest resources

end Starcraft

/-! ## Supporting lemmas -/

namespace Starcraft

/-- The AI worker of starcraft.py, `Unit(UnitType.WORKER, (MAP_WIDTH - 5, MAP_HEIGHT - 6),
player2)` with MAP_WIDTH = 32, MAP_HEIGHT = 24. -/
def aiWorker : Unit := Unit.init UnitType.WORKER (27, 18)

/-- The AI mineral patch, `Resource((MAP_WIDTH - 10, 10), 1000)`. -/
def aiPatch : Resource := Resource.init (22, 10) 1000

lemma aiAssignHarvest_id (units : List Unit) (resources : List Resource) :
    aiAssignHarvest units resources = units := by
  induction units with
  | nil => rfl
  | cons u rest ih => simp [aiAssignHarvest, unitTypeEqPyStr, ih]

lemma trainKeyAux_spec (ox oy : ℝ) :
    ∀ (bs : List Building) (p : Player),
      (∃ b ∈ bs, b.type = BuildingType.BARRACKS) →
      (trainKeyAux p ox oy bs).supply_used = p.supply_used + 1 ∧
      (trainKeyAux p ox oy bs).buildings = p.buildings ∧
      (trainKeyAux p ox oy bs).supply_max = p.supply_max ∧
      (p.minerals < 50 →
        (trainKeyAux p ox oy bs).units = p.units ∧
        (trainKeyAux p ox oy bs).minerals = p.minerals) := by
  intro bs
  induction bs with
  | nil => intro p h; simp at h
  | cons b rest ih =>
    intro p h
    by_cases hb : b.type = BuildingType.BARRACKS
    · simp only [trainKeyAux, hb, if_true]
      by_cases hm : 50 ≤ p.minerals
      · simp [Building.train_unit, Building.can_build, hb, hm, Player.update_supply]
      · simp [Building.train_unit, Building.can_build, hb, hm, Player.update_supply]
    · simp only [trainKeyAux, hb, if_false]
      apply ih
      rcases h with ⟨b', hb', hty⟩
      rcases List.mem_cons.mp hb' with rfl | hmem
      · exact absurd hty hb
      · exact ⟨b', hmem, hty⟩

lemma handleTrainKey_buildings (p : Player) (ox oy : ℝ)
    (h : ∃ b ∈ p.buildings, b.type = BuildingType.BARRACKS) :
    (handleTrainKey p ox oy).buildings = p.buildings :=
  (trainKeyAux_spec ox oy p.buildings p h).2.1

lemma handleTrainKey_iterate (p : Player)
    (h : ∃ b ∈ p.buildings, b.type = BuildingType.BARRACKS) :
    ∀ n : ℕ, ((fun q => handleTrainKey q 0 0)^[n] p).supply_used
      = p.supply_used + n ∧
      ((fun q => handleTrainKey q 0 0)^[n] p).buildings = p.buildings ∧
      ((fun q => handleTrainKey q 0 0)^[n] p).supply_max = p.supply_max := by
  intro n
  induction n with
  | zero => simp
  | succ n ihn =>
    rcases ihn with ⟨hsu, hbu, hsm⟩
    have hbar : ∃ b ∈ ((fun q => handleTrainKey q 0 0)^[n] p).buildings,
        b.type = BuildingType.BARRACKS := by rw [hbu]; exact h
    have hstep := trainKeyAux_spec 0 0
      ((fun q => handleTrainKey q 0 0)^[n] p).buildings
      ((fun q => handleTrainKey q 0 0)^[n] p) hbar
    rw [Function.iterate_succ_apply']
    refine ⟨?_, ?_, ?_⟩
    · show (handleTrainKey _ 0 0).supply_used = _
      rw [handleTrainKey, hstep.1, hsu]
      push_cast
      ring
    · show (handleTrainKey _ 0 0).buildings = _
      rw [handleTrainKey, hstep.2.1, hbu]
    · show (handleTrainKey _ 0 0).supply_max = _
      rw [handleTrainKey, hstep.2.2.1, hsm]

/-- A player1 state with supply 10/10 and a barracks, as produced by ten
earlier T presses from the initial Terran player after a barracks build. -/
def cappedPlayer : Player :=
  { Player.init with
    supply_used := 10
    buildings := [Building.init BuildingType.BARRACKS (300, 300)] }

/-- A player1 state with a barracks and no minerals. -/
def brokePlayer : Player :=
  { Player.init with
    minerals := 0
    buildings := [Building.init BuildingType.BARRACKS (300, 300)] }

end Starcraft

/-- One straight-line movement step of length s toward (tx, ty) shortens
the distance to (tx, ty) by exactly s, provided s does not overshoot. -/
lemma approach_step (x y tx ty s : ℝ) (hs : 0 < s)
    (hd : s ≤ hypot (tx - x) (ty - y)) :
    hypot (tx - (x + (tx - x) / hypot (tx - x) (ty - y) * s))
        (ty - (y + (ty - y) / hypot (tx - x) (ty - y) * s))
      = hypot (tx - x) (ty - y) - s := by
  have hd0 : 0 < hypot (tx - x) (ty - y) := lt_of_lt_of_le hs hd
  set d := hypot (tx - x) (ty - y) with hdd
  have hne : d ≠ 0 := ne_of_gt hd0
  have h1 : tx - (x + (tx - x) / d * s) = ((d - s) / d) * (tx - x) := by
    field_simp
    ring
  have h2 : ty - (y + (ty - y) / d * s) = ((d - s) / d) * (ty - y) := by
    field_simp
    ring
  rw [h1, h2, hypot_scale _ _ _ (div_nonneg (by linarith) hd0.le), ← hdd]
  field_simp

namespace Kingshot

lemma enemy_update_pos (e : Enemy)
    (h : 0 < hypot (e.target_x - e.x) (e.target_y - e.y)) :
    e.update = { e with
      x := e.x + (e.target_x - e.x) / hypot (e.target_x - e.x) (e.target_y - e.y) * e.speed
      y := e.y + (e.target_y - e.y) / hypot (e.target_x - e.x) (e.target_y - e.y) * e.speed } := by
  simp only [Enemy.update]
  rw [if_pos h]

lemma king_applyOp_inv (s : King × List Projectile) (op : KingOp)
    (h : 0 ≤ s.1.shoot_cooldown ∧ s.1.shoot_cooldown ≤ s.1.shoot_delay) :
    0 ≤ (King.applyOp s op).1.shoot_cooldown
    ∧ (King.applyOp s op).1.shoot_cooldown ≤ (King.applyOp s op).1.shoot_delay := by
  obtain ⟨k, ps⟩ := s
  obtain ⟨h1, h2⟩ := h
  cases op with
  | update =>
    simp only [King.applyOp, King.update] at *
    by_cases hc : 0 < k.shoot_cooldown
    · simp only [hc, if_true]
      exact ⟨show (0:ℤ) ≤ k.shoot_cooldown - 1 by omega,
        show k.shoot_cooldown - 1 ≤ k.shoot_delay by omega⟩
    · simp only [hc, if_false]
      exact ⟨h1, h2⟩
  | shoot tx ty =>
    simp only [King.applyOp, King.shoot] at *
    by_cases hc : k.shoot_cooldown ≤ 0
    · simp only [hc, if_true]
      exact ⟨show (0:ℤ) ≤ k.shoot_delay by omega,
        show k.shoot_delay ≤ k.shoot_delay from le_rfl⟩
    · simp only [hc, if_false]
      exact ⟨h1, h2⟩

/-- Invariant of the nearest-so-far scan when the accumulator already holds
a candidate b at its true distance: the scan returns some final candidate at
its true distance, which either is b itself (no scanned enemy is in range
and strictly closer) or a scanned enemy that is in range, strictly closer
than b, strictly closer than every in-range enemy before it, and at most as
far as every in-range enemy after it. -/
lemma findTargetAux_some_spec (t : Tower) :
    ∀ (es : List Enemy) (b : Enemy),
      ∃ b', t.findTargetAux es (some (b, t.distTo b)) = some (b', t.distTo b')
        ∧ ((b' = b ∧ ∀ e ∈ es, t.distTo e < t.range → t.distTo b ≤ t.distTo e)
          ∨ (∃ l1 l2, es = l1 ++ b' :: l2 ∧ t.distTo b' < t.range
              ∧ t.distTo b' < t.distTo b
              ∧ (∀ e ∈ l1, t.distTo e < t.range → t.distTo b' < t.distTo e)
              ∧ (∀ e ∈ l2, t.distTo e < t.range → t.distTo b' ≤ t.distTo e))) := by
  intro es
  induction es with
  | nil =>
    intro b
    exact ⟨b, rfl, Or.inl ⟨rfl, by simp⟩⟩
  | cons e rest ih =>
    intro b
    by_cases h : t.distTo e < t.range ∧ t.distTo e < t.distTo b
    · have hred : t.findTargetAux (e :: rest) (some (b, t.distTo b))
          = t.findTargetAux rest (some (e, t.distTo e)) := by
        simp only [Tower.findTargetAux]
        rw [if_pos h]
      obtain ⟨b', heq, hcase⟩ := ih e
      refine ⟨b', by rw [hred, heq], ?_⟩
      rcases hcase with ⟨rfl, hall⟩ | ⟨l1, l2, hsplit, hr, hlt, hl1, hl2⟩
      · right
        exact ⟨[], rest, by simp, h.1, h.2, by simp, hall⟩
      · right
        refine ⟨e :: l1, l2, by rw [hsplit]; rfl, hr, lt_trans hlt h.2, ?_, hl2⟩
        intro x hx hxr
        rcases List.mem_cons.mp hx with rfl | hx'
        · exact hlt
        · exact hl1 x hx' hxr
    · have hred : t.findTargetAux (e :: rest) (some (b, t.distTo b))
          = t.findTargetAux rest (some (b, t.distTo b)) := by
        simp only [Tower.findTargetAux]
        rw [if_neg h]
      obtain ⟨b', heq, hcase⟩ := ih b
      refine ⟨b', by rw [hred, heq], ?_⟩
      rcases hcase with ⟨rfl, hall⟩ | ⟨l1, l2, hsplit, hr, hlt, hl1, hl2⟩
      · left
        refine ⟨rfl, ?_⟩
        intro x hx hxr
        rcases List.mem_cons.mp hx with rfl | hx'
        · by_contra hcon
          push_neg at hcon
          exact h ⟨hxr, hcon⟩
        · exact hall x hx' hxr
      · right
        refine ⟨e :: l1, l2, by rw [hsplit]; rfl, hr, hlt, ?_, hl2⟩
        intro x hx hxr
        rcases List.mem_cons.mp hx with rfl | hx'
        · have hbe : t.distTo b ≤ t.distTo x := by
            by_contra hcon
            push_neg at hcon
            exact h ⟨hxr, hcon⟩
          exact lt_of_lt_of_le hlt hbe
        · exact hl1 x hx' hxr

/-- The nearest-so-far scan started empty (min_dist = infinity) either finds
nothing — exactly when no enemy is in range — or returns an in-range enemy
that is strictly closer than every in-range enemy before it in scan order
and at most as far as every in-range enemy after it. -/
lemma findTargetAux_none_spec (t : Tower) :
    ∀ es : List Enemy,
      (t.findTargetAux es none = none ∧ ∀ e ∈ es, ¬ t.distTo e < t.range)
      ∨ (∃ b' l1 l2, t.findTargetAux es none = some (b', t.distTo b')
          ∧ es = l1 ++ b' :: l2 ∧ t.distTo b' < t.range
          ∧ (∀ e ∈ l1, t.distTo e < t.range → t.distTo b' < t.distTo e)
          ∧ (∀ e ∈ l2, t.distTo e < t.range → t.distTo b' ≤ t.distTo e)) := by
  intro es
  induction es with
  | nil =>
    left
    exact ⟨rfl, by simp⟩
  | cons e rest ih =>
    by_cases h : t.distTo e < t.range
    · right
      have hred : t.findTargetAux (e :: rest) none
          = t.findTargetAux rest (some (e, t.distTo e)) := by
        simp only [Tower.findTargetAux]
        rw [if_pos h]
      obtain ⟨b', heq, hcase⟩ := findTargetAux_some_spec t rest e
      rcases hcase with ⟨rfl, hall⟩ | ⟨l1, l2, hsplit, hr, hlt, hl1, hl2⟩
      · exact ⟨b', [], rest, by rw [hred, heq], by simp, h, by simp, hall⟩
      · refine ⟨b', e :: l1, l2, by rw [hred, heq], by rw [hsplit]; rfl, hr, ?_, hl2⟩
        intro x hx hxr
        rcases List.mem_cons.mp hx with rfl | hx'
        · exact hlt
        · exact hl1 x hx' hxr
    · have hred : t.findTargetAux (e :: rest) none = t.findTargetAux rest none := by
        simp only [Tower.findTargetAux]
        rw [if_neg h]
      rcases ih with ⟨hnone, hall⟩ | ⟨b', l1, l2, heq, hsplit, hr, hl1, hl2⟩
      · left
        refine ⟨by rw [hred]; exact hnone, ?_⟩
        intro x hx
        rcases List.mem_cons.mp hx with rfl | hx'
        · exact h
        · exact hall x hx'
      · right
        refine ⟨b', e :: l1, l2, by rw [hred]; exact heq, by rw [hsplit]; rfl, hr, ?_, hl2⟩
        intro x hx hxr
        rcases List.mem_cons.mp hx with rfl | hx'
        · exact absurd hxr h
        · exact hl1 x hx' hxr

lemma tower_update_inv (t : Tower) (es : List Enemy) (ps : List Projectile)
    (h1 : 0 ≤ t.shoot_cooldown) (h2 : t.shoot_cooldown ≤ t.shoot_delay) :
    0 ≤ (Tower.update t es ps).1.shoot_cooldown
    ∧ (Tower.update t es ps).1.shoot_cooldown ≤ (Tower.update t es ps).1.shoot_delay := by
  unfold Tower.update
  by_cases hc : 0 < t.shoot_cooldown
  · rw [if_pos hc]
    exact ⟨show (0:ℤ) ≤ t.shoot_cooldown - 1 by omega,
      show t.shoot_cooldown - 1 ≤ t.shoot_delay by omega⟩
  · rw [if_neg hc]
    rcases hfa : t.findTargetAux es none with _ | ⟨b, m⟩
    · exact ⟨h1, h2⟩
    · exact ⟨show (0:ℤ) ≤ t.shoot_delay by omega,
        show t.shoot_delay ≤ t.shoot_delay from le_rfl⟩

end Kingshot

namespace KsThrown

lemma enemy_update_pos_kt (e : Enemy)
    (h : 0 < hypot (e.target_x - e.x) (e.target_y - e.y)) :
    e.update = { e with
      x := e.x + (e.target_x - e.x) / hypot (e.target_x - e.x) (e.target_y - e.y) * e.speed
      y := e.y + (e.target_y - e.y) / hypot (e.target_x - e.x) (e.target_y - e.y) * e.speed } := by
  simp only [Enemy.update]
  rw [if_pos h]

end KsThrown

namespace Kingshot

/-- The projectile after the velocity step at the top of Projectile.update. -/
noncomputable def moved (p : Projectile) : Projectile :=
  { p with x := p.x + p.vx, y := p.y + p.vy }

/-- The enemy scan of Projectile.update damages exactly the first
overlapping enemy — enemies before it are untouched, enemies after it are
never examined — and reports a hit; if no enemy overlaps it returns the
list unchanged with no hit. -/
lemma checkEnemies_spec (p : Projectile) :
    ∀ es : List Enemy,
      (p.checkEnemies es = (es, false) ∧ ∀ e ∈ es, ¬ hitsEnemy p e)
      ∨ (∃ l1 e l2, es = l1 ++ e :: l2 ∧ (∀ x ∈ l1, ¬ hitsEnemy p x)
          ∧ hitsEnemy p e
          ∧ p.checkEnemies es
            = (if e.health - p.damage ≤ 0 then l1 ++ l2
               else l1 ++ { e with health := e.health - p.damage } :: l2, true)) := by
  intro es
  induction es with
  | nil =>
    left
    exact ⟨rfl, by simp⟩
  | cons e rest ih =>
    by_cases h : hitsEnemy p e
    · right
      refine ⟨[], e, rest, rfl, by simp, h, ?_⟩
      simp only [Projectile.checkEnemies, Enemy.take_damage]
      rw [if_pos h]
      by_cases hz : e.health - p.damage ≤ 0
      · simp [hz]
      · simp [hz]
    · rcases ih with ⟨heq, hnone⟩ | ⟨l1, x, l2, hsplit, hl1, hx, heq⟩
      · left
        constructor
        · simp only [Projectile.checkEnemies]
          rw [if_neg h, heq]
        · intro z hz
          rcases List.mem_cons.mp hz with rfl | hz'
          · exact h
          · exact hnone z hz'
      · right
        refine ⟨e :: l1, x, l2, by rw [hsplit]; rfl, ?_, hx, ?_⟩
        · intro z hz
          rcases List.mem_cons.mp hz with rfl | hz'
          · exact h
          · exact hl1 z hz'
        · simp only [Projectile.checkEnemies]
          rw [if_neg h, heq]
          by_cases hz : x.health - p.damage ≤ 0
          · simp [hz]
          · simp [hz]

/-- The scan reports a hit exactly when some enemy overlaps. -/
lemma checkEnemies_flag (p : Projectile) (es : List Enemy) :
    (p.checkEnemies es).2 = true ↔ ∃ e ∈ es, hitsEnemy p e := by
  rcases checkEnemies_spec p es with ⟨heq, hnone⟩ | ⟨l1, e, l2, hsplit, _, he, heq⟩
  · rw [heq]
    simp only [Bool.false_eq_true, false_iff]
    rintro ⟨e, hmem, hhit⟩
    exact hnone e hmem hhit
  · rw [heq]
    simp only [true_iff]
    exact ⟨e, by rw [hsplit]; simp, he⟩

/-- Every enemy surviving the scan keeps the position and radius of an
enemy of the input list (damage touches only health). -/
lemma checkEnemies_geom (p : Projectile) :
    ∀ es : List Enemy, ∀ e' ∈ (p.checkEnemies es).1,
      ∃ e ∈ es, e'.x = e.x ∧ e'.y = e.y ∧ e'.radius = e.radius := by
  intro es
  induction es with
  | nil => simp [Projectile.checkEnemies]
  | cons e rest ih =>
    intro e' he'
    by_cases h : hitsEnemy p e
    · rw [show p.checkEnemies (e :: rest)
          = (if e.health - p.damage ≤ 0 then rest
             else { e with health := e.health - p.damage } :: rest, true) by
        simp only [Projectile.checkEnemies, Enemy.take_damage]
        rw [if_pos h]
        by_cases hz : e.health - p.damage ≤ 0
        · simp [hz]
        · simp [hz]] at he'
      by_cases hz : e.health - p.damage ≤ 0
      · rw [if_pos hz] at he'
        exact ⟨e', List.mem_cons_of_mem e he', rfl, rfl, rfl⟩
      · rw [if_neg hz] at he'
        rcases List.mem_cons.mp he' with rfl | hmem
        · exact ⟨e, List.mem_cons_self e rest, rfl, rfl, rfl⟩
        · exact ⟨e', List.mem_cons_of_mem e hmem, rfl, rfl, rfl⟩
    · rw [show p.checkEnemies (e :: rest)
          = (e :: (p.checkEnemies rest).1, (p.checkEnemies rest).2) by
        simp only [Projectile.checkEnemies]
        rw [if_neg h]] at he'
      rcases List.mem_cons.mp he' with rfl | hmem
      · exact ⟨e', List.mem_cons_self e' rest, rfl, rfl, rfl⟩
      · obtain ⟨x, hx, hgeom⟩ := ih e' hmem
        exact ⟨x, List.mem_cons_of_mem e hx, hgeom⟩

/-- Projectile.update in terms of the moved projectile: the enemies output
is always the scan result, the hit flag is true exactly when the moved
projectile overlaps an enemy or the king or left the screen, an unconsumed
update changes nothing, and the king's position and radius are never
touched. -/
lemma projectile_update_spec (p : Projectile) (es : List Enemy) (k : King) :
    (p.update es k).1 = moved p
    ∧ (p.update es k).2.1 = ((moved p).checkEnemies es).1
    ∧ ((p.update es k).2.2.2 = true ↔
        (∃ e ∈ es, hitsEnemy (moved p) e) ∨ hitsKing (moved p) k ∨ ¬ onScreen (moved p))
    ∧ ((p.update es k).2.2.2 = false →
        (p.update es k).2.1 = es ∧ (p.update es k).2.2.1 = k)
    ∧ (p.update es k).2.2.1.x = k.x
    ∧ (p.update es k).2.2.1.y = k.y
    ∧ (p.update es k).2.2.1.radius = k.radius := by
  have hupd : p.update es k
      = (if ((moved p).checkEnemies es).2 then
          (moved p, ((moved p).checkEnemies es).1, k, true)
        else if hitsKing (moved p) k then
          (moved p, ((moved p).checkEnemies es).1,
            { k with health := k.health - (moved p).damage }, true)
        else if ¬ onScreen (moved p) then
          (moved p, ((moved p).checkEnemies es).1, k, true)
        else (moved p, ((moved p).checkEnemies es).1, k, false)) := by
    simp only [Projectile.update, moved]
  by_cases hflag : ((moved p).checkEnemies es).2
  · rw [hupd, if_pos hflag]
    refine ⟨rfl, rfl, ?_, by simp, rfl, rfl, rfl⟩
    simp only [true_iff]
    exact Or.inl ((checkEnemies_flag (moved p) es).mp hflag)
  · have hnohit : ¬ ∃ e ∈ es, hitsEnemy (moved p) e := by
      intro hex
      exact hflag ((checkEnemies_flag (moved p) es).mpr hex)
    have hceq : (moved p).checkEnemies es = (es, false) := by
      rcases checkEnemies_spec (moved p) es with ⟨heq, _⟩ | ⟨l1, e, l2, hsplit, _, he, _⟩
      · exact heq
      · exact absurd ⟨e, by rw [hsplit]; simp, he⟩ hnohit
    rw [hupd, if_neg hflag]
    by_cases hking : hitsKing (moved p) k
    · rw [if_pos hking]
      refine ⟨rfl, rfl, ?_, by simp, rfl, rfl, rfl⟩
      simp only [true_iff]
      exact Or.inr (Or.inl hking)
    · rw [if_neg hking]
      by_cases hout : ¬ onScreen (moved p)
      · rw [if_pos hout]
        refine ⟨rfl, rfl, ?_, by simp, rfl, rfl, rfl⟩
        simp only [true_iff]
        exact Or.inr (Or.inr hout)
      · rw [if_neg hout]
        refine ⟨rfl, rfl, ?_, ?_, rfl, rfl, rfl⟩
        · simp only [Bool.false_eq_true, false_iff]
          rintro (hex | hk | ho)
          · exact hnohit hex
          · exact hking hk
          · exact hout ho
        · intro _
          rw [hceq]
          exact ⟨rfl, rfl⟩

/-- Overlap tests depend only on positions and radii. -/
lemma hitsEnemy_geom_congr (q : Projectile) {e e' : Enemy}
    (hx : e'.x = e.x) (hy : e'.y = e.y) (hr : e'.radius = e.radius) :
    hitsEnemy q e' ↔ hitsEnemy q e := by
  unfold hitsEnemy
  rw [hx, hy, hr]

lemma hitsKing_geom_congr (q : Projectile) {k k' : King}
    (hx : k'.x = k.x) (hy : k'.y = k.y) (hr : k'.radius = k.radius) :
    hitsKing q k' ↔ hitsKing q k := by
  unfold hitsKing
  rw [hx, hy, hr]

/-- After the frame driver's projectile pass, the king's position and
radius are unchanged, every surviving enemy keeps the geometry of an input
enemy, and every surviving projectile is on screen and overlaps neither the
king nor any surviving enemy: a projectile that overlapped something or
left the screen was removed within the pass. -/
lemma projectilesPass_spec :
    ∀ (ps : List Projectile) (es : List Enemy) (k : King),
      (projectilesPass ps es k).2.2.x = k.x
      ∧ (projectilesPass ps es k).2.2.y = k.y
      ∧ (projectilesPass ps es k).2.2.radius = k.radius
      ∧ (∀ e' ∈ (projectilesPass ps es k).2.1,
          ∃ e ∈ es, e'.x = e.x ∧ e'.y = e.y ∧ e'.radius = e.radius)
      ∧ ∀ q ∈ (projectilesPass ps es k).1,
          onScreen q
          ∧ ¬ hitsKing q (projectilesPass ps es k).2.2
          ∧ ∀ e ∈ (projectilesPass ps es k).2.1, ¬ hitsEnemy q e := by
  intro ps
  induction ps with
  | nil =>
    intro es k
    exact ⟨rfl, rfl, rfl, fun e' he' => ⟨e', he', rfl, rfl, rfl⟩, by simp [projectilesPass]⟩
  | cons p ps ih =>
    intro es k
    have hspec := projectile_update_spec p es k
    by_cases hflag : (p.update es k).2.2.2
    · have hred : projectilesPass (p :: ps) es k
          = projectilesPass ps (p.update es k).2.1 (p.update es k).2.2.1 := by
        simp only [projectilesPass]
        rw [if_pos hflag]
      obtain ⟨ihx, ihy, ihr, ihgeom, ihsurv⟩ :=
        ih (p.update es k).2.1 (p.update es k).2.2.1
      rw [hred]
      refine ⟨by rw [ihx, hspec.2.2.2.2.1], by rw [ihy, hspec.2.2.2.2.2.1],
        by rw [ihr, hspec.2.2.2.2.2.2], ?_, ihsurv⟩
      intro e' he'
      obtain ⟨e1, he1, hg1⟩ := ihgeom e' he'
      rw [hspec.2.1] at he1
      obtain ⟨e0, he0, hg0⟩ := checkEnemies_geom (moved p) es e1 he1
      exact ⟨e0, he0, hg1.1.trans hg0.1, hg1.2.1.trans hg0.2.1, hg1.2.2.trans hg0.2.2⟩
    · have hflag' : (p.update es k).2.2.2 = false := by
        simpa using hflag
      obtain ⟨hes, hk⟩ := hspec.2.2.2.1 hflag'
      have hred : projectilesPass (p :: ps) es k
          = ((p.update es k).1 :: (projectilesPass ps es k).1,
              (projectilesPass ps es k).2.1, (projectilesPass ps es k).2.2) := by
        simp only [projectilesPass]
        rw [hes, hk, if_neg (by rw [hflag']; simp)]
      obtain ⟨ihx, ihy, ihr, ihgeom, ihsurv⟩ := ih es k
      have hnotriple : ¬ ((∃ e ∈ es, hitsEnemy (moved p) e)
          ∨ hitsKing (moved p) k ∨ ¬ onScreen (moved p)) := by
        intro hd
        have := hspec.2.2.1.mpr hd
        rw [hflag'] at this
        exact Bool.false_ne_true this
      push_neg at hnotriple
      obtain ⟨hnoenemy, hnoking, hon⟩ := hnotriple
      rw [hred]
      refine ⟨ihx, ihy, ihr, ihgeom, ?_⟩
      intro q hq
      rcases List.mem_cons.mp hq with rfl | hq'
      · rw [hspec.1]
        refine ⟨hon, ?_, ?_⟩
        · rw [hitsKing_geom_congr (moved p) ihx ihy ihr]
          exact hnoking
        · intro e' he'
          obtain ⟨e0, he0, hg⟩ := ihgeom e' he'
          rw [hitsEnemy_geom_congr (moved p) hg.1 hg.2.1 hg.2.2]
          exact hnoenemy e0 he0
      · exact ihsurv q hq'

end Kingshot

/-! ## Claim theorems -/

/-- C3: In the RTS demo, on each firing of the AI timer, if the opponent
player owns at least one worker-typed unit and the opponent's first resource
is not depleted, that worker is assigned a Harvest order targeting that
resource.  The code compares `u.type` (a UnitType enum member) against the
string "Worker", which is False for every unit, so the generator never finds
a worker and no Harvest order is ever issued: the assignment block is the
identity on the unit list.  The first conjunct shows this for every unit
list and resource list; the rest evaluates the block at the game's own AI
worker and undepleted mineral patch and shows the worker stays IDLE. -/
theorem ai_worker_harvest_never_assigned :
    (∀ (units : List Starcraft.Unit) (resources : List Starcraft.Resource),
        Starcraft.aiAssignHarvest units resources = units)
    ∧ Starcraft.aiAssignHarvest [Starcraft.aiWorker] [Starcraft.aiPatch]
        = [Starcraft.aiWorker]
    ∧ Starcraft.aiWorker.order = Starcraft.Order.IDLE
    ∧ Starcraft.aiPatch.depleted = false := by
  refine ⟨Starcraft.aiAssignHarvest_id, Starcraft.aiAssignHarvest_id _ _, rfl, rfl⟩

/-- C10: pressing T while the human player owns a barracks always increments
supply_used by 1 — even when train_unit returns None for lack of minerals,
in which case no unit is spawned and no minerals move — and since nothing
consults can_afford_supply, repeated presses drive supply_used past
supply_max: from a 10/10 player a press yields 11/10 although
can_afford_supply would have refused. -/
theorem train_key_always_increments_supply :
    (∀ (p : Starcraft.Player) (ox oy : ℝ),
       (∃ b ∈ p.buildings, b.type = Starcraft.BuildingType.BARRACKS) →
       (Starcraft.handleTrainKey p ox oy).supply_used = p.supply_used + 1
       ∧ (p.minerals < 50 →
           (Starcraft.handleTrainKey p ox oy).units = p.units
           ∧ (Starcraft.handleTrainKey p ox oy).minerals = p.minerals))
    ∧ (∀ (p : Starcraft.Player) (n : ℕ),
       (∃ b ∈ p.buildings, b.type = Starcraft.BuildingType.BARRACKS) →
       (((fun q => Starcraft.handleTrainKey q 0 0)^[n] p).supply_used
          = p.supply_used + n))
    ∧ Starcraft.cappedPlayer.can_afford_supply 1 = false
    ∧ (Starcraft.handleTrainKey Starcraft.cappedPlayer 0 0).supply_used = 11
    ∧ Starcraft.cappedPlayer.supply_max = 10 := by
  have hbar : ∀ p : Starcraft.Player,
      (∃ b ∈ p.buildings, b.type = Starcraft.BuildingType.BARRACKS) →
      (Starcraft.handleTrainKey p 0 0).supply_used = p.supply_used + 1 := by
    intro p hp
    exact (Starcraft.trainKeyAux_spec 0 0 p.buildings p hp).1
  refine ⟨?_, ?_, ?_, ?_, ?_⟩
  · intro p ox oy hp
    exact ⟨(Starcraft.trainKeyAux_spec ox oy p.buildings p hp).1,
      (Starcraft.trainKeyAux_spec ox oy p.buildings p hp).2.2.2⟩
  · intro p n hp
    exact (Starcraft.handleTrainKey_iterate p hp n).1
  · rfl
  · have h := hbar Starcraft.cappedPlayer
      ⟨Starcraft.Building.init Starcraft.BuildingType.BARRACKS (300, 300), by
        simp [Starcraft.cappedPlayer], rfl⟩
    rw [h]
    rfl
  · rfl

/-- C10 witness: the main theorem applied to the broke player (a barracks,
zero minerals): one T press takes supply_used from 0 to 1 while leaving the
unit list and mineral counter untouched. -/
theorem train_key_always_increments_supply_witness :
    (Starcraft.handleTrainKey Starcraft.brokePlayer 0 0).supply_used
      = Starcraft.brokePlayer.supply_used + 1
    ∧ (Starcraft.handleTrainKey Starcraft.brokePlayer 0 0).units
      = Starcraft.brokePlayer.units
    ∧ (Starcraft.handleTrainKey Starcraft.brokePlayer 0 0).minerals
      = Starcraft.brokePlayer.minerals := by
  have h := train_key_always_increments_supply.1 Starcraft.brokePlayer 0 0
    ⟨Starcraft.Building.init Starcraft.BuildingType.BARRACKS (300, 300), by
      simp [Starcraft.brokePlayer], rfl⟩
  exact ⟨h.1, (h.2 (by decide)).1, (h.2 (by decide)).2⟩

/-- A player1 worker parked on its mineral patch's tile (1, 1) — tile
coordinate times TILE_SIZE = pixel (32, 32) — after a right-click harvest
order (issue_order set order = HARVEST and target = the Resource). -/
def harvestingWorker : Starcraft.Unit :=
  { Starcraft.Unit.init Starcraft.UnitType.WORKER (32, 32) with
    order := Starcraft.Order.HARVEST, target := some Starcraft.TargetKind.toResource }

/-- C2 counterexample: a resource holding its last 8 minerals.  The harvest
tick drains it to 0, marks it depleted and idles the worker — but credits
the player nothing, whereas the claim says the mineral counter is credited
by the gather amount on every such tick (here 50 should have become 58). -/
theorem harvest_depleting_tick_credits_nothing :
    (Starcraft.harvestTick harvestingWorker (Starcraft.Resource.init (1, 1) 8) 50).2.2 = 50
    ∧ (Starcraft.harvestTick harvestingWorker (Starcraft.Resource.init (1, 1) 8) 50).2.1.amount = 0
    ∧ (Starcraft.harvestTick harvestingWorker (Starcraft.Resource.init (1, 1) 8) 50).2.1.depleted = true
    ∧ (Starcraft.harvestTick harvestingWorker (Starcraft.Resource.init (1, 1) 8) 50).1.order
        = Starcraft.Order.IDLE
    ∧ (50 : ℤ) ≠ 50 + 8 := by
  norm_num [Starcraft.harvestTick, harvestingWorker, Starcraft.Unit.init,
    Starcraft.Resource.init, Starcraft.TILE_SIZE, hypot_zero]

/-- C2 (amended): on every tick in which a human-player unit has order
Harvest targeting the Resource and sits strictly within 20 pixels of it,
the resource is drained by the gather rate 8; the player's minerals are
credited 8 only when the post-drain amount is still positive — on the tick
the amount reaches ≤ 0 the resource is marked depleted and the worker goes
Idle with no credit for that final drain.  (The harvest block iterates over
player1's units only, so AI units never gather.) -/
theorem harvest_tick_drains_and_credits :
    ∀ (u : Starcraft.Unit) (res : Starcraft.Resource) (minerals : ℤ),
      u.order = Starcraft.Order.HARVEST →
      u.target = some Starcraft.TargetKind.toResource →
      hypot (u.pos.1 - res.pos.1 * Starcraft.TILE_SIZE)
          (u.pos.2 - res.pos.2 * Starcraft.TILE_SIZE) < 20 →
      (Starcraft.harvestTick u res minerals).2.1.amount = res.amount - 8
      ∧ (0 < res.amount - 8 →
          (Starcraft.harvestTick u res minerals).2.2 = minerals + 8
          ∧ (Starcraft.harvestTick u res minerals).2.1.depleted = res.depleted
          ∧ (Starcraft.harvestTick u res minerals).1 = u)
      ∧ (res.amount - 8 ≤ 0 →
          (Starcraft.harvestTick u res minerals).2.2 = minerals
          ∧ (Starcraft.harvestTick u res minerals).2.1.depleted = true
          ∧ (Starcraft.harvestTick u res minerals).1.order = Starcraft.Order.IDLE) := by
  intro u res minerals horder htarget hdist
  unfold Starcraft.harvestTick
  rw [if_pos ⟨horder, htarget⟩, if_pos hdist]
  by_cases hz : res.amount - 8 ≤ 0
  · rw [if_pos (show ({ res with amount := res.amount - 8 } : Starcraft.Resource).amount ≤ 0 from hz)]
    refine ⟨rfl, ?_, fun _ => ⟨rfl, rfl, rfl⟩⟩
    intro hpos
    exact absurd hz (not_le.mpr hpos)
  · rw [if_neg (show ¬ ({ res with amount := res.amount - 8 } : Starcraft.Resource).amount ≤ 0 from hz)]
    refine ⟨rfl, fun _ => ⟨rfl, rfl, rfl⟩, ?_⟩
    intro hle
    exact absurd hle hz

/-- C2 witness: the amended theorem applied to the harvesting worker on a
full 1000-mineral patch with 0 banked minerals: the tick credits 8 and
leaves 992 in the patch. -/
theorem harvest_tick_drains_and_credits_witness :
    (Starcraft.harvestTick harvestingWorker (Starcraft.Resource.init (1, 1) 1000) 0).2.2 = 0 + 8
    ∧ (Starcraft.harvestTick harvestingWorker (Starcraft.Resource.init (1, 1) 1000) 0).2.1.amount
        = 992 := by
  have h := harvest_tick_drains_and_credits harvestingWorker
    (Starcraft.Resource.init (1, 1) 1000) 0 rfl rfl
    (by norm_num [harvestingWorker, Starcraft.Unit.init, Starcraft.Resource.init,
      Starcraft.TILE_SIZE, hypot_zero])
  refine ⟨(h.2.1 (by norm_num [Starcraft.Resource.init])).1, ?_⟩
  rw [h.1]
  norm_num [Starcraft.Resource.init]

/-- A defeated kingshot round: the king died mid-wave with the wave timer at
150 and a warm shoot cooldown. -/
def crashedKsState : Kingshot.State :=
  { Kingshot.initState with
    wave_timer := 150, game_over := true
    king := { Kingshot.King.init 400 300 with health := 0, shoot_cooldown := 4 } }

/-- A defeated ks_thrown round: the king died after some kills banked 30
gold_earned for the never-reached day payout. -/
def crashedThrownState : KsThrown.State :=
  { KsThrown.initState with
    gold_earned := 30, game_over := true, build_phase := false, wave_active := true
    king := { KsThrown.King.init 400 300 with health := 0, shoot_cooldown := 4 } }

/-- C4 counterexample: restarting from concrete game-over states does not
reproduce the fresh start state: in kingshot the wave timer (150) and the
king's shoot cooldown survive the restart, in ks_thrown the gold_earned
accumulator (30) and the cooldown survive. -/
theorem restart_keeps_stale_state :
    Kingshot.restart crashedKsState ≠ Kingshot.initState
    ∧ (Kingshot.restart crashedKsState).wave_timer = 150
    ∧ KsThrown.restart crashedThrownState ≠ KsThrown.initState
    ∧ (KsThrown.restart crashedThrownState).gold_earned = 30 := by
  refine ⟨?_, rfl, ?_, rfl⟩
  · intro h
    have := congrArg Kingshot.State.wave_timer h
    simp [Kingshot.restart, Kingshot.initState, crashedKsState] at this
  · intro h
    have := congrArg KsThrown.State.gold_earned h
    simp [KsThrown.restart, KsThrown.initState, crashedThrownState] at this

/-- C4 (amended): the R handler in the game-over state resets king health,
the entity collections, and the wave counter (kingshot) resp. gold, day,
phase, day timer and wave flag (ks_thrown) to their fresh-start values, but
it preserves wave_timer and spawn_timer and the king's shoot cooldown
(kingshot) resp. gold_earned and the king's shoot cooldown (ks_thrown), so
the restarted state coincides with a fresh start only when those preserved
fields already hold their initial values. -/
theorem restart_resets_all_but_timers :
    (∀ s : Kingshot.State,
      (Kingshot.restart s).king.health = s.king.max_health
      ∧ (Kingshot.restart s).enemies = []
      ∧ (Kingshot.restart s).projectiles = []
      ∧ (Kingshot.restart s).wave = 0
      ∧ (Kingshot.restart s).game_over = false
      ∧ (Kingshot.restart s).wave_timer = s.wave_timer
      ∧ (Kingshot.restart s).spawn_timer = s.spawn_timer
      ∧ (Kingshot.restart s).king.shoot_cooldown = s.king.shoot_cooldown
      ∧ (Kingshot.restart s).towers = s.towers
      ∧ (s.wave_timer ≠ 0 → Kingshot.restart s ≠ Kingshot.initState))
    ∧ (∀ s : KsThrown.State,
      (KsThrown.restart s).king.health = s.king.max_health
      ∧ (KsThrown.restart s).towers = []
      ∧ (KsThrown.restart s).enemies = []
      ∧ (KsThrown.restart s).projectiles = []
      ∧ (KsThrown.restart s).gold = 200
      ∧ (KsThrown.restart s).day = 1
      ∧ (KsThrown.restart s).build_phase = true
      ∧ (KsThrown.restart s).day_timer = 600
      ∧ (KsThrown.restart s).wave_active = false
      ∧ (KsThrown.restart s).game_over = false
      ∧ (KsThrown.restart s).gold_earned = s.gold_earned
      ∧ (KsThrown.restart s).king.shoot_cooldown = s.king.shoot_cooldown
      ∧ (s.gold_earned ≠ 0 → KsThrown.restart s ≠ KsThrown.initState)) := by
  constructor
  · intro s
    refine ⟨rfl, rfl, rfl, rfl, rfl, rfl, rfl, rfl, rfl, ?_⟩
    intro hwt h
    have := congrArg Kingshot.State.wave_timer h
    exact hwt (by simpa [Kingshot.restart, Kingshot.initState] using this)
  · intro s
    refine ⟨rfl, rfl, rfl, rfl, rfl, rfl, rfl, rfl, rfl, rfl, rfl, rfl, ?_⟩
    intro hge h
    have := congrArg KsThrown.State.gold_earned h
    exact hge (by simpa [KsThrown.restart, KsThrown.initState] using this)

/-- C4 witness: the amended theorem applied to game-over states whose wave
timer is 7 (kingshot) resp. whose gold_earned is 3 (ks_thrown): the restart
differs from the fresh start. -/
theorem restart_resets_all_but_timers_witness :
    Kingshot.restart { Kingshot.initState with wave_timer := 7, game_over := true }
      ≠ Kingshot.initState
    ∧ KsThrown.restart { KsThrown.initState with gold_earned := 3, game_over := true }
      ≠ KsThrown.initState := by
  constructor
  · exact (restart_resets_all_but_timers.1
      { Kingshot.initState with wave_timer := 7, game_over := true }).2.2.2.2.2.2.2.2.2
      (by decide)
  · exact (restart_resets_all_but_timers.2
      { KsThrown.initState with gold_earned := 3, game_over := true }).2.2.2.2.2.2.2.2.2.2.2.2
      (by decide)

/-- C9: starting from the constructed king (cooldown 0, delay 10) and tower
(cooldown 0, delay 30), no sequence of per-tick updates and shots ever
drives the shoot cooldown below 0 or above the configured delay: update
decrements only a positive cooldown, and a successful shot resets it to the
delay. -/
theorem shoot_cooldown_stays_in_range :
    (∀ (x y : ℝ) (ops : List Kingshot.KingOp),
      0 ≤ (Kingshot.King.runOps (Kingshot.King.init x y, []) ops).1.shoot_cooldown
      ∧ (Kingshot.King.runOps (Kingshot.King.init x y, []) ops).1.shoot_cooldown
          ≤ (Kingshot.King.runOps (Kingshot.King.init x y, []) ops).1.shoot_delay)
    ∧ (∀ (x y : ℝ) (ticks : List (List Kingshot.Enemy)),
      0 ≤ (Kingshot.Tower.runOps (Kingshot.Tower.init x y, []) ticks).1.shoot_cooldown
      ∧ (Kingshot.Tower.runOps (Kingshot.Tower.init x y, []) ticks).1.shoot_cooldown
          ≤ (Kingshot.Tower.runOps (Kingshot.Tower.init x y, []) ticks).1.shoot_delay) := by
  constructor
  · intro x y ops
    exact foldl_inv
      (fun s => 0 ≤ s.1.shoot_cooldown ∧ s.1.shoot_cooldown ≤ s.1.shoot_delay)
      Kingshot.King.applyOp (fun s op h => Kingshot.king_applyOp_inv s op h) ops
      (Kingshot.King.init x y, [])
      ⟨show (0:ℤ) ≤ 0 from le_rfl, show (0:ℤ) ≤ 10 by norm_num⟩
  · intro x y ticks
    exact foldl_inv
      (fun s => 0 ≤ s.1.shoot_cooldown ∧ s.1.shoot_cooldown ≤ s.1.shoot_delay)
      (fun s es => Kingshot.Tower.update s.1 es s.2)
      (fun s es h => Kingshot.tower_update_inv s.1 es s.2 h.1 h.2) ticks
      (Kingshot.Tower.init x y, [])
      ⟨show (0:ℤ) ≤ 0 from le_rfl, show (0:ℤ) ≤ 30 by norm_num⟩

/-- C6: when the kingshot wave timer crosses 300 the wave counter becomes
wave + 1 and exactly 2 * (wave + 1) enemies are spawned, each on the left or
right screen edge and each targeting the king's position as it is at spawn
time; at the ks_thrown Build-to-Defend transition (day timer reaching 0)
exactly 3 * day enemies are spawned the same way. -/
theorem wave_and_day_spawn_counts :
    (∀ (wave : ℕ) (wt st : ℤ) (king : Kingshot.King) (sides : ℕ → Bool) (ys : ℕ → ℤ),
      300 < wt + 1 →
      (Kingshot.waveTick wave wt st king sides ys).1 = wave + 1
      ∧ (Kingshot.waveTick wave wt st king sides ys).2.1 = 0
      ∧ (Kingshot.waveTick wave wt st king sides ys).2.2.2.length = 2 * (wave + 1)
      ∧ ∀ e ∈ (Kingshot.waveTick wave wt st king sides ys).2.2.2,
          (e.x = 0 ∨ e.x = Kingshot.SCREEN_WIDTH)
          ∧ e.target_x = king.x ∧ e.target_y = king.y)
    ∧ (∀ (day : ℕ) (dt : ℤ) (wa : Bool) (king : KsThrown.King)
        (sides : ℕ → Bool) (ys : ℕ → ℤ),
      dt - 1 ≤ 0 →
      (KsThrown.buildTick day dt wa king sides ys).1 = false
      ∧ (KsThrown.buildTick day dt wa king sides ys).2.1 = true
      ∧ (KsThrown.buildTick day dt wa king sides ys).2.2.2.length = 3 * day
      ∧ ∀ e ∈ (KsThrown.buildTick day dt wa king sides ys).2.2.2,
          (e.x = 0 ∨ e.x = KsThrown.SCREEN_WIDTH)
          ∧ e.target_x = king.x ∧ e.target_y = king.y) := by
  constructor
  · intro wave wt st king sides ys h
    unfold Kingshot.waveTick
    rw [if_pos h]
    refine ⟨rfl, rfl, by simp [Nat.mul_comm], ?_⟩
    intro e he
    rw [List.mem_map] at he
    obtain ⟨i, _, rfl⟩ := he
    refine ⟨?_, rfl, rfl⟩
    by_cases hs : sides i
    · left
      simp [Kingshot.spawnEnemy, Kingshot.Enemy.init, hs]
    · right
      simp [Kingshot.spawnEnemy, Kingshot.Enemy.init, hs]
  · intro day dt wa king sides ys h
    unfold KsThrown.buildTick
    rw [if_pos h]
    refine ⟨rfl, rfl, by simp [Nat.mul_comm], ?_⟩
    intro e he
    rw [List.mem_map] at he
    obtain ⟨i, _, rfl⟩ := he
    refine ⟨?_, rfl, rfl⟩
    by_cases hs : sides i
    · left
      simp [KsThrown.spawnEnemy, KsThrown.Enemy.init, hs]
    · right
      simp [KsThrown.spawnEnemy, KsThrown.Enemy.init, hs]

/-- C6 witness: with the wave timer at 300 on wave 0 (kingshot) the tick
spawns 2 enemies; with the day timer at 1 on day 1 (ks_thrown) the
transition spawns 3 enemies. -/
theorem wave_and_day_spawn_counts_witness :
    (Kingshot.waveTick 0 300 0 (Kingshot.King.init 400 300)
        (fun _ => true) (fun _ => 50)).2.2.2.length = 2 * 1
    ∧ (KsThrown.buildTick 1 1 false (KsThrown.King.init 400 300)
        (fun _ => true) (fun _ => 50)).2.2.2.length = 3 * 1 := by
  refine ⟨?_, ?_⟩
  · exact (wave_and_day_spawn_counts.1 0 300 0 (Kingshot.King.init 400 300)
      (fun _ => true) (fun _ => 50) (by norm_num)).2.2.1
  · exact (wave_and_day_spawn_counts.2 1 1 false (KsThrown.King.init 400 300)
      (fun _ => true) (fun _ => 50) (by norm_num)).2.2.1

/-- C7: in both variants, as long as an enemy (constructed speed 1.5,
radius 15) is not yet in contact with the king (distance to its captured
target point at least 35 = enemy radius 15 + king radius 20), Enemy.update
shortens the distance to the captured target point by exactly the speed —
in particular strictly — and it moves along the straight line toward that
captured point, which update leaves unchanged: the displacement is a
positive multiple of the vector to the captured target, and the live king
position is not even an input of Enemy.update. -/
theorem enemy_approaches_captured_target :
    (∀ e : Kingshot.Enemy, e.speed = 1.5 →
      35 ≤ hypot (e.target_x - e.x) (e.target_y - e.y) →
      hypot (e.target_x - e.update.x) (e.target_y - e.update.y)
        = hypot (e.target_x - e.x) (e.target_y - e.y) - e.speed
      ∧ hypot (e.target_x - e.update.x) (e.target_y - e.update.y)
        < hypot (e.target_x - e.x) (e.target_y - e.y)
      ∧ e.update.target_x = e.target_x ∧ e.update.target_y = e.target_y
      ∧ ∃ c : ℝ, 0 < c
          ∧ e.update.x - e.x = c * (e.target_x - e.x)
          ∧ e.update.y - e.y = c * (e.target_y - e.y))
    ∧ (∀ e : KsThrown.Enemy, e.speed = 1.5 →
      35 ≤ hypot (e.target_x - e.x) (e.target_y - e.y) →
      hypot (e.target_x - e.update.x) (e.target_y - e.update.y)
        = hypot (e.target_x - e.x) (e.target_y - e.y) - e.speed
      ∧ hypot (e.target_x - e.update.x) (e.target_y - e.update.y)
        < hypot (e.target_x - e.x) (e.target_y - e.y)
      ∧ e.update.target_x = e.target_x ∧ e.update.target_y = e.target_y
      ∧ ∃ c : ℝ, 0 < c
          ∧ e.update.x - e.x = c * (e.target_x - e.x)
          ∧ e.update.y - e.y = c * (e.target_y - e.y)) := by
  constructor
  · intro e hs hd
    have hd0 : (0:ℝ) < hypot (e.target_x - e.x) (e.target_y - e.y) :=
      lt_of_lt_of_le (by norm_num) hd
    have hsd : e.speed ≤ hypot (e.target_x - e.x) (e.target_y - e.y) := by
      rw [hs]; linarith
    have hspos : (0:ℝ) < e.speed := by rw [hs]; norm_num
    have key := approach_step e.x e.y e.target_x e.target_y e.speed hspos hsd
    rw [Kingshot.enemy_update_pos e hd0]
    refine ⟨by simpa using key, ?_, rfl, rfl, ?_⟩
    · have : hypot (e.target_x - e.x) (e.target_y - e.y) - e.speed
          < hypot (e.target_x - e.x) (e.target_y - e.y) := by linarith
      simpa [key] using this
    · refine ⟨e.speed / hypot (e.target_x - e.x) (e.target_y - e.y),
        div_pos hspos hd0, ?_, ?_⟩
      · simp only []
        ring
      · simp only []
        ring
  · intro e hs hd
    have hd0 : (0:ℝ) < hypot (e.target_x - e.x) (e.target_y - e.y) :=
      lt_of_lt_of_le (by norm_num) hd
    have hsd : e.speed ≤ hypot (e.target_x - e.x) (e.target_y - e.y) := by
      rw [hs]; linarith
    have hspos : (0:ℝ) < e.speed := by rw [hs]; norm_num
    have key := approach_step e.x e.y e.target_x e.target_y e.speed hspos hsd
    rw [KsThrown.enemy_update_pos_kt e hd0]
    refine ⟨by simpa using key, ?_, rfl, rfl, ?_⟩
    · have : hypot (e.target_x - e.x) (e.target_y - e.y) - e.speed
          < hypot (e.target_x - e.x) (e.target_y - e.y) := by linarith
      simpa [key] using this
    · refine ⟨e.speed / hypot (e.target_x - e.x) (e.target_y - e.y),
        div_pos hspos hd0, ?_, ?_⟩
      · simp only []
        ring
      · simp only []
        ring

/-- C7 witness: the theorem applied to an enemy spawned at the origin with
captured target (100, 0): one update strictly decreases the distance to the
target (from 100 to 98.5) in both variants. -/
theorem enemy_approaches_captured_target_witness :
    hypot ((Kingshot.Enemy.init 0 0 100 0).target_x
        - (Kingshot.Enemy.init 0 0 100 0).update.x)
      ((Kingshot.Enemy.init 0 0 100 0).target_y
        - (Kingshot.Enemy.init 0 0 100 0).update.y)
      < hypot ((Kingshot.Enemy.init 0 0 100 0).target_x - (Kingshot.Enemy.init 0 0 100 0).x)
        ((Kingshot.Enemy.init 0 0 100 0).target_y - (Kingshot.Enemy.init 0 0 100 0).y)
    ∧ hypot ((KsThrown.Enemy.init 0 0 100 0).target_x
        - (KsThrown.Enemy.init 0 0 100 0).update.x)
      ((KsThrown.Enemy.init 0 0 100 0).target_y
        - (KsThrown.Enemy.init 0 0 100 0).update.y)
      < hypot ((KsThrown.Enemy.init 0 0 100 0).target_x - (KsThrown.Enemy.init 0 0 100 0).x)
        ((KsThrown.Enemy.init 0 0 100 0).target_y - (KsThrown.Enemy.init 0 0 100 0).y) := by
  constructor
  · exact (enemy_approaches_captured_target.1 (Kingshot.Enemy.init 0 0 100 0) rfl
      (by show (35:ℝ) ≤ hypot (100 - 0) (0 - 0); norm_num [hypot_axis])).2.1
  · exact (enemy_approaches_captured_target.2 (KsThrown.Enemy.init 0 0 100 0) rfl
      (by show (35:ℝ) ≤ hypot (100 - 0) (0 - 0); norm_num [hypot_axis])).2.1

/-- C1: evaluation of both games at a concrete failing input.  The king at
(400, 300) fires at (500, 300): King.shoot appends one player projectile,
and because Projectile.__init__ never stores the is_player flag, the very
first Projectile.update (with no enemies anywhere) moves the projectile 8px
right of the king, finds it within 2 + 20 of the king's center, damages the
king from 100 to 90 and consumes the projectile — in both variants. -/
theorem king_projectile_damages_king :
    ((Kingshot.King.shoot (Kingshot.King.init 400 300) 500 300 []).2
      = [Kingshot.Projectile.init 400 300 (atan2 (300 - 300) (500 - 400)) 10 true])
    ∧ (Kingshot.King.init 400 300).health = 100
    ∧ (Kingshot.Projectile.update
        (Kingshot.Projectile.init 400 300 (atan2 (300 - 300) (500 - 400)) 10 true)
        [] (Kingshot.King.init 400 300)).2.2.1.health = 90
    ∧ (Kingshot.Projectile.update
        (Kingshot.Projectile.init 400 300 (atan2 (300 - 300) (500 - 400)) 10 true)
        [] (Kingshot.King.init 400 300)).2.2.2 = true
    ∧ ((KsThrown.King.shoot (KsThrown.King.init 400 300) 500 300 []).2
      = [KsThrown.Projectile.init 400 300 (atan2 (300 - 300) (500 - 400)) 10 true])
    ∧ (KsThrown.King.init 400 300).health = 100
    ∧ (KsThrown.Projectile.update
        (KsThrown.Projectile.init 400 300 (atan2 (300 - 300) (500 - 400)) 10 true)
        [] (KsThrown.King.init 400 300)).2.2.1.health = 90
    ∧ (KsThrown.Projectile.update
        (KsThrown.Projectile.init 400 300 (atan2 (300 - 300) (500 - 400)) 10 true)
        [] (KsThrown.King.init 400 300)).2.2.2.1 = true := by
  have hang : atan2 ((300:ℝ) - 300) ((500:ℝ) - 400) = 0 := by
    norm_num
    exact atan2_zero_of_pos (by norm_num)
  have hp1 : Kingshot.Projectile.init 400 300 (atan2 (300 - 300) (500 - 400)) 10 true
      = { x := 400, y := 300, vx := 8, vy := 0, damage := 10, radius := 2 } := by
    rw [hang]
    simp [Kingshot.Projectile.init, Real.cos_zero, Real.sin_zero]
  have hp2 : KsThrown.Projectile.init 400 300 (atan2 (300 - 300) (500 - 400)) 10 true
      = { x := 400, y := 300, vx := 8, vy := 0, damage := 10, radius := 2 } := by
    rw [hang]
    simp [KsThrown.Projectile.init, Real.cos_zero, Real.sin_zero]
  have hk1 : Kingshot.hitsKing
      ({ x := 400 + 8, y := 300 + 0, vx := 8, vy := 0, damage := 10, radius := 2 } :
        Kingshot.Projectile) (Kingshot.King.init 400 300) := by
    show hypot (400 + 8 - 400) (300 + 0 - 300) < 2 + 20
    norm_num [hypot_axis]
  have hk2 : KsThrown.hitsKing
      ({ x := 400 + 8, y := 300 + 0, vx := 8, vy := 0, damage := 10, radius := 2 } :
        KsThrown.Projectile) (KsThrown.King.init 400 300) := by
    show hypot (400 + 8 - 400) (300 + 0 - 300) < 2 + 20
    norm_num [hypot_axis]
  refine ⟨rfl, rfl, ?_, ?_, rfl, rfl, ?_, ?_⟩
  · rw [hp1]
    simp only [Kingshot.Projectile.update, Kingshot.Projectile.checkEnemies]
    rw [if_neg (by simp), if_pos hk1]
    norm_num [Kingshot.King.init]
  · rw [hp1]
    simp only [Kingshot.Projectile.update, Kingshot.Projectile.checkEnemies]
    rw [if_neg (by simp), if_pos hk1]
  · rw [hp2]
    simp only [KsThrown.Projectile.update, KsThrown.Projectile.checkEnemies]
    rw [if_neg (by simp), if_pos hk2]
    norm_num [KsThrown.King.init]
  · rw [hp2]
    simp only [KsThrown.Projectile.update, KsThrown.Projectile.checkEnemies]
    rw [if_neg (by simp), if_pos hk2]

/-- The tower of the spec's worked example, at the origin with range 150. -/
def rangeTower : Kingshot.Tower := Kingshot.Tower.init 0 0

/-- An enemy at distance 180 from rangeTower (out of range). -/
noncomputable def farEnemy : Kingshot.Enemy := Kingshot.Enemy.init 180 0 0 0

/-- An enemy at distance 90 from rangeTower (nearest in range). -/
noncomputable def nearEnemy : Kingshot.Enemy := Kingshot.Enemy.init 90 0 0 0

/-- An enemy at distance 140 from rangeTower (in range, farther). -/
noncomputable def midEnemy : Kingshot.Enemy := Kingshot.Enemy.init 140 0 0 0

/-- C8: a tower whose cooldown is zero fires at the enemy minimizing
distance among all enemies strictly within its range — exact ties go to the
first such enemy in iteration order, since only a strictly smaller distance
replaces the scan's candidate — and if no enemy is in range it does
nothing.  In particular, scanning enemies at distances [180, 90, 140] with
range 150 selects the enemy at distance 90. -/
theorem tower_fires_at_nearest_in_range :
    (∀ (t : Kingshot.Tower) (es : List Kingshot.Enemy) (ps : List Kingshot.Projectile),
      t.shoot_cooldown = 0 →
      (t.findTarget es = none →
        (∀ e ∈ es, ¬ t.distTo e < t.range) ∧ t.update es ps = (t, ps))
      ∧ (∀ b', t.findTarget es = some b' →
        t.distTo b' < t.range
        ∧ (∀ e ∈ es, t.distTo e < t.range → t.distTo b' ≤ t.distTo e)
        ∧ (∃ l1 l2, es = l1 ++ b' :: l2
            ∧ ∀ e ∈ l1, t.distTo e < t.range → t.distTo b' < t.distTo e)
        ∧ t.update es ps = ({ t with shoot_cooldown := t.shoot_delay },
            ps ++ [Kingshot.Projectile.init t.x t.y
              (atan2 (b'.y - t.y) (b'.x - t.x)) t.damage false])))
    ∧ Kingshot.Tower.findTarget rangeTower [farEnemy, nearEnemy, midEnemy]
        = some nearEnemy := by
  constructor
  · intro t es ps hc
    have hnotpos : ¬ 0 < t.shoot_cooldown := by omega
    rcases Kingshot.findTargetAux_none_spec t es with ⟨hnone, hall⟩
      | ⟨b'', l1, l2, heq, hsplit, hr, hl1, hl2⟩
    · constructor
      · intro _
        refine ⟨hall, ?_⟩
        unfold Kingshot.Tower.update
        rw [if_neg hnotpos, hnone]
      · intro b' hb'
        rw [Kingshot.Tower.findTarget, hnone] at hb'
        simp at hb'
    · constructor
      · intro hcontra
        rw [Kingshot.Tower.findTarget, heq] at hcontra
        simp at hcontra
      · intro b' hb'
        rw [Kingshot.Tower.findTarget, heq] at hb'
        simp at hb'
        subst hb'
        have hmin : ∀ e ∈ es, t.distTo e < t.range → t.distTo b'' ≤ t.distTo e := by
          intro x hx hxr
          rw [hsplit] at hx
          rcases List.mem_append.mp hx with hx1 | hx2
          · exact (hl1 x hx1 hxr).le
          · rcases List.mem_cons.mp hx2 with rfl | hx3
            · exact le_rfl
            · exact hl2 x hx3 hxr
        refine ⟨hr, hmin, ⟨l1, l2, hsplit, hl1⟩, ?_⟩
        unfold Kingshot.Tower.update
        rw [if_neg hnotpos, heq]
  · have hd1 : rangeTower.distTo farEnemy = 180 := by
      show hypot (180 - 0) (0 - 0) = 180
      norm_num [hypot_axis]
    have hd2 : rangeTower.distTo nearEnemy = 90 := by
      show hypot (90 - 0) (0 - 0) = 90
      norm_num [hypot_axis]
    have hd3 : rangeTower.distTo midEnemy = 140 := by
      show hypot (140 - 0) (0 - 0) = 140
      norm_num [hypot_axis]
    have hrange : rangeTower.range = 150 := rfl
    have h1 : ¬ rangeTower.distTo farEnemy < rangeTower.range := by
      rw [hd1, hrange]
      norm_num
    have h2 : rangeTower.distTo nearEnemy < rangeTower.range := by
      rw [hd2, hrange]
      norm_num
    have h3 : ¬ (rangeTower.distTo midEnemy < rangeTower.range
        ∧ rangeTower.distTo midEnemy < rangeTower.distTo nearEnemy) := by
      rw [hd3, hd2, hrange]
      norm_num
    rw [Kingshot.Tower.findTarget]
    rw [show Kingshot.Tower.findTargetAux rangeTower [farEnemy, nearEnemy, midEnemy] none
        = Kingshot.Tower.findTargetAux rangeTower [nearEnemy, midEnemy] none by
      simp only [Kingshot.Tower.findTargetAux]
      rw [if_neg h1]]
    rw [show Kingshot.Tower.findTargetAux rangeTower [nearEnemy, midEnemy] none
        = Kingshot.Tower.findTargetAux rangeTower [midEnemy]
            (some (nearEnemy, rangeTower.distTo nearEnemy)) by
      simp only [Kingshot.Tower.findTargetAux]
      rw [if_pos h2]]
    rw [show Kingshot.Tower.findTargetAux rangeTower [midEnemy]
          (some (nearEnemy, rangeTower.distTo nearEnemy))
        = some (nearEnemy, rangeTower.distTo nearEnemy) by
      simp only [Kingshot.Tower.findTargetAux]
      rw [if_neg h3]]
    rfl

/-- C8 witness: the theorem applied to rangeTower and the [180, 90, 140]
line-up with an all-zero cooldown: the selected enemy (the one at distance
90) is in range and at minimal distance among the in-range enemies. -/
theorem tower_fires_at_nearest_in_range_witness :
    rangeTower.distTo nearEnemy < rangeTower.range
    ∧ (∀ e ∈ [farEnemy, nearEnemy, midEnemy],
        rangeTower.distTo e < rangeTower.range →
        rangeTower.distTo nearEnemy ≤ rangeTower.distTo e) := by
  have h := (tower_fires_at_nearest_in_range.1 rangeTower
      [farEnemy, nearEnemy, midEnemy] [] rfl).2 nearEnemy
      tower_fires_at_nearest_in_range.2
  exact ⟨h.1, h.2.1⟩

/-- C5: (a) the enemy scan of Projectile.update damages exactly the first
overlapping enemy in scan order — earlier enemies are untouched, later ones
never examined — removing it when its health drops to ≤ 0; (b) an update
reports consumed exactly when the moved projectile overlaps some enemy, or
the king, or has left the screen, and an unconsumed update changes neither
enemies nor king; (c) the frame driver's pass removes every consumed
projectile that same tick: afterwards every surviving projectile is on
screen and overlaps neither the king nor any surviving enemy, so a
projectile is removed on the first tick it hits a target or leaves bounds
and can never damage a second target on a later tick. -/
theorem projectile_first_hit_and_prompt_removal :
    (∀ (p : Kingshot.Projectile) (es : List Kingshot.Enemy),
      (p.checkEnemies es = (es, false) ∧ ∀ e ∈ es, ¬ Kingshot.hitsEnemy p e)
      ∨ (∃ l1 e l2, es = l1 ++ e :: l2 ∧ (∀ x ∈ l1, ¬ Kingshot.hitsEnemy p x)
          ∧ Kingshot.hitsEnemy p e
          ∧ p.checkEnemies es = (if e.health - p.damage ≤ 0 then l1 ++ l2
              else l1 ++ { e with health := e.health - p.damage } :: l2, true)))
    ∧ (∀ (p : Kingshot.Projectile) (es : List Kingshot.Enemy) (k : Kingshot.King),
        ((p.update es k).2.2.2 = true ↔
          (∃ e ∈ es, Kingshot.hitsEnemy (Kingshot.moved p) e)
          ∨ Kingshot.hitsKing (Kingshot.moved p) k
          ∨ ¬ Kingshot.onScreen (Kingshot.moved p))
        ∧ ((p.update es k).2.2.2 = false →
            (p.update es k).2.1 = es ∧ (p.update es k).2.2.1 = k))
    ∧ (∀ (ps : List Kingshot.Projectile) (es : List Kingshot.Enemy) (k : Kingshot.King),
        ∀ q ∈ (Kingshot.projectilesPass ps es k).1,
          Kingshot.onScreen q
          ∧ ¬ Kingshot.hitsKing q (Kingshot.projectilesPass ps es k).2.2
          ∧ ∀ e ∈ (Kingshot.projectilesPass ps es k).2.1, ¬ Kingshot.hitsEnemy q e) := by
  refine ⟨fun p => Kingshot.checkEnemies_spec p, fun p es k => ?_, fun ps es k =>
    (Kingshot.projectilesPass_spec ps es k).2.2.2.2⟩
  exact ⟨(Kingshot.projectile_update_spec p es k).2.2.1,
    (Kingshot.projectile_update_spec p es k).2.2.2.1⟩

/-- A projectile drifting right across open ground, away from everything. -/
def strayProjectile : Kingshot.Projectile :=
  { x := 100, y := 100, vx := 1, vy := 0, damage := 10, radius := 3 }

/-- A king on the left screen edge, 101 pixels from the moved projectile. -/
def farKing : Kingshot.King := Kingshot.King.init 0 100

/-- C5 witness: the theorem applied to the stray projectile with no enemies
and a distant king: the update is not consumed and leaves the king
untouched. -/
theorem projectile_first_hit_and_prompt_removal_witness :
    (strayProjectile.update [] farKing).2.2.2 = false
    ∧ (strayProjectile.update [] farKing).2.2.1 = farKing := by
  have h := projectile_first_hit_and_prompt_removal.2.1 strayProjectile [] farKing
  have hno : ¬ ((∃ e ∈ ([] : List Kingshot.Enemy),
        Kingshot.hitsEnemy (Kingshot.moved strayProjectile) e)
      ∨ Kingshot.hitsKing (Kingshot.moved strayProjectile) farKing
      ∨ ¬ Kingshot.onScreen (Kingshot.moved strayProjectile)) := by
    rintro (hex | hk | ho)
    · simp at hex
    · have : ¬ Kingshot.hitsKing (Kingshot.moved strayProjectile) farKing := by
        show ¬ hypot (100 + 1 - 0) (100 + 0 - 100) < 3 + 20
        norm_num [hypot_axis]
      exact this hk
    · refine ho ?_
      show (0 < (100:ℝ) + 1 ∧ (100:ℝ) + 1 < 800) ∧ (0 < (100:ℝ) + 0 ∧ (100:ℝ) + 0 < 600)
      norm_num
  have hfalse : (strayProjectile.update [] farKing).2.2.2 ≠ true :=
    fun ht => hno (h.1.mp ht)
  have hflag : (strayProjectile.update [] farKing).2.2.2 = false :=
    Bool.eq_false_iff.mpr hfalse
  exact ⟨hflag, (h.2 hflag).2⟩
